import Mathlib

/-!
Verification development for the FLO system (server.js, public/runtime.js
variants runtime1 / runtime12 / runtime123).

The FLO compiler in every source file is a fixed chain of JavaScript
regular-expression replacements over a string.  We embed strings as
`List Char` and each `String.prototype.replace(/pat/g, rep)` pass as a
left-to-right scan (`gRep`) driven by a matcher for that particular
pattern.  The matchers below are direct translations of the concrete
regular expressions appearing in the sources; greedy and lazy
quantifier behaviour is reproduced exactly (each starred item in the
sources is a single character class, so greedy matching is a maximal
run with explicit backtracking, and the one lazy item is a shortest
scan that cannot cross a line terminator).

The consumer pipeline (the async IIFE of the runtime files) is embedded
as a pure function over an abstract record of browser facilities
(`atob`, `crypto.subtle.importKey`, `crypto.subtle.verify`), returning
the final state of the render target together with the list of
cryptographic and compilation events in the order they occur.
-/

/-- JavaScript word characters: the class [a-zA-Z0-9_]. -/
def isWordChar (c : Char) : Bool :=
  (97 ≤ c.toNat && c.toNat ≤ 122) || (65 ≤ c.toNat && c.toNat ≤ 90) ||
  (48 ≤ c.toNat && c.toNat ≤ 57) || c.toNat = 95

/-- JavaScript whitespace class: the set matched by a backslash-s atom,
which is also the set removed by String.prototype.trim (WhiteSpace
together with the line terminators). -/
def isJsSpace (c : Char) : Bool :=
  c.toNat = 32 || c.toNat = 9 || c.toNat = 10 || c.toNat = 11 || c.toNat = 12 ||
  c.toNat = 13 || c.toNat = 160 || c.toNat = 0x1680 ||
  (0x2000 ≤ c.toNat && c.toNat ≤ 0x200a) ||
  c.toNat = 0x2028 || c.toNat = 0x2029 || c.toNat = 0x202f ||
  c.toNat = 0x205f || c.toNat = 0x3000 || c.toNat = 0xfeff

/-- JavaScript line terminators, which the dot atom does not match
(no dotAll flag appears in the sources). -/
def isLineTerm (c : Char) : Bool :=
  c.toNat = 10 || c.toNat = 13 || c.toNat = 0x2028 || c.toNat = 0x2029

/-- Strip a literal from the front of the input, returning the remainder
when the literal is a prefix. -/
def stripPre : List Char → List Char → Option (List Char)
  | [], s => some s
  | _ :: _, [] => none
  | p :: ps, c :: cs => if p = c then stripPre ps cs else none

/-- One step of a global regex replace, fueled so that the recursion is
structural (the fuel is an upper bound on the length of the remaining
input; each successful match consumes at least one character for every
matcher in this development).  `try1 s` returns the replacement text and
the input remaining after the match when the pattern matches at the very
start of `s`. -/
def gReplaceF (try1 : List Char → Option (List Char × List Char)) :
    Nat → List Char → List Char
  | _, [] => []
  | 0, s => s
  | n + 1, c :: cs =>
    match try1 (c :: cs) with
    | some (rep, rest) => rep ++ gReplaceF try1 n rest
    | none => c :: gReplaceF try1 n cs

/-- Global replace: the semantics of str.replace(/pat/g, rep), scanning
left to right, emitting unmatched characters unchanged, never rescanning
replacement text. -/
def gRep (try1 : List Char → Option (List Char × List Char))
    (s : List Char) : List Char :=
  gReplaceF try1 s.length s

/-- Does the pattern match at some position of the input (equivalently,
does the global replace fire at least once)? -/
def hasMatch (try1 : List Char → Option (List Char × List Char)) :
    List Char → Bool
  | [] => (try1 []).isSome
  | c :: cs => (try1 (c :: cs)).isSome || hasMatch try1 cs

/-- Greedy backtracking for a leading character-class star: positions
are tried from the longest candidate run down to the empty run. -/
def backtrack (k : List Char → Option α) (t : List Char) : Nat → Option α
  | 0 => k t
  | n + 1 =>
    match k (t.drop (n + 1)) with
    | some r => some r
    | none => backtrack k t n

/-- Lazy scan for the pattern dot-star-lazy followed by a closing
literal: tries the shortest inner text first and may not consume a line
terminator. -/
def lazyScan (close : List Char) :
    List Char → List Char → Option (List Char × List Char)
  | [], acc =>
    match stripPre close [] with
    | some rest => some (acc.reverse, rest)
    | none => none
  | c :: cs, acc =>
    match stripPre close (c :: cs) with
    | some rest => some (acc.reverse, rest)
    | none => if isLineTerm c then none else lazyScan close cs (c :: acc)

/-- Matcher for a literal pattern replaced by a literal, such as the
pass rewriting the closing page tag to a closing div. -/
def tryLit (pat rep : List Char) (s : List Char) :
    Option (List Char × List Char) :=
  if pat.isEmpty then none
  else
    match stripPre pat s with
    | some rest => some (rep, rest)
    | none => none

/-- Continuation for the titled open-tag patterns after the leading
character-class star: literal title attribute opener, a nonempty greedy
run of non-quote characters (the capture), the closing quote, a greedy
run of non-gt characters, and the closing gt. -/
def titledTail (u : List Char) : Option (List Char × List Char) :=
  match stripPre ('t' :: 'i' :: 't' :: 'l' :: 'e' :: '=' :: '"' :: []) u with
  | none => none
  | some v =>
    let ttl := v.takeWhile (fun c => c ≠ '"')
    if ttl.isEmpty then none
    else
      match stripPre ['"'] (v.drop ttl.length) with
      | none => none
      | some w =>
        let junk := w.takeWhile (fun c => c ≠ '>')
        match stripPre ['>'] (w.drop junk.length) with
        | some x => some (ttl, x)
        | none => none

/-- Matcher for the two titled open-tag patterns (page and card): the
literal tag opener, a greedy run of non-gt characters, then the title
attribute as in `titledTail`.  `mkRep` builds the replacement from the
captured title. -/
def tryTitled (openLit : List Char) (mkRep : List Char → List Char)
    (s : List Char) : Option (List Char × List Char) :=
  match stripPre openLit s with
  | none => none
  | some t =>
    match backtrack titledTail t ((t.takeWhile (fun c => c ≠ '>')).length) with
    | some (ttl, rest) => some (mkRep ttl, rest)
    | none => none

/-- The open page tag pass of every compiler in the sources. -/
def tryPageOpen : List Char → Option (List Char × List Char) :=
  tryTitled "<flo:page".data
    (fun ttl => "<div class=\"flo-page\" data-title=\"".data ++ ttl ++ "\">".data)

/-- The open card tag pass of every compiler in the sources. -/
def tryCardOpen : List Char → Option (List Char × List Char) :=
  tryTitled "<flo:card".data
    (fun ttl => "<section class=\"flo-card\" data-title=\"".data ++ ttl ++ "\">".data)

/-- Matcher for the link pattern: literal opener including the href
attribute opener, a nonempty greedy run of non-quote characters (the
href capture), closing quote, greedy run of non-gt characters, gt, a
lazy dot-star inner-text capture, and the literal closing link tag. -/
def tryLink (s : List Char) : Option (List Char × List Char) :=
  match stripPre "<flo:link href=\"".data s with
  | none => none
  | some t =>
    let href := t.takeWhile (fun c => c ≠ '"')
    if href.isEmpty then none
    else
      match stripPre ['"'] (t.drop href.length) with
      | none => none
      | some u =>
        let junk := u.takeWhile (fun c => c ≠ '>')
        match stripPre ['>'] (u.drop junk.length) with
        | none => none
        | some v =>
          match lazyScan "</flo:link>".data v [] with
          | none => none
          | some (inner, rest) =>
            some ("<a href=\"".data ++ href ++ "\" class=\"flo-link\">".data ++
                  inner ++ "</a>".data, rest)

/-- Matcher for the interpolation pattern: two open braces, optional
whitespace, a nonempty identifier capture, optional whitespace, two
close braces.  The adjacent character classes are disjoint, so the
greedy quantifiers here are deterministic maximal runs.  `val` resolves
the captured identifier to its replacement text. -/
def tryInterp (val : List Char → List Char) (s : List Char) :
    Option (List Char × List Char) :=
  match stripPre ['{', '{'] s with
  | none => none
  | some t =>
    let t1 := t.dropWhile isJsSpace
    let ident := t1.takeWhile isWordChar
    if ident.isEmpty then none
    else
      let t2 := (t1.drop ident.length).dropWhile isJsSpace
      match stripPre ['}', '}'] t2 with
      | none => none
      | some rest => some (val ident, rest)

/-- Context bindings as an explicit string-to-string mapping, the data
model named by the specification for both sides. -/
def Ctx : Type := List Char → Option (List Char)

/-- The interpolation replacement of runtime1 and runtime12: the bound
value when the identifier is defined, otherwise the empty string. -/
def interpClient (ctx : Ctx) (v : List Char) : List Char :=
  (ctx v).getD []

/-- The interpolation replacement of server.js and runtime123, written
with the or-else idiom over the looked-up value (falsy empty string
behaves the same as the defined-check for string values). -/
def interpServer (ctx : Ctx) (v : List Char) : List Char :=
  match ctx v with
  | some s => if s.isEmpty then [] else s
  | none => []

/-- The ordered structural-substitution chain of server.js
(compileFLOtoHTML, the eleven global replaces after interpolation). -/
def serverStructuralPasses (h0 : List Char) : List Char :=
  let h1 := gRep tryPageOpen h0
  let h2 := gRep (tryLit "</flo:page>".data "</div>".data) h1
  let h3 := gRep (tryLit "<flo:header>".data "<header class=\"flo-header\">".data) h2
  let h4 := gRep (tryLit "</flo:header>".data "</header>".data) h3
  let h5 := gRep (tryLit "<flo:nav>".data "<nav class=\"flo-nav\">".data) h4
  let h6 := gRep (tryLit "</flo:nav>".data "</nav>".data) h5
  let h7 := gRep (tryLit "<flo:logo>".data "<div class=\"flo-logo\">".data) h6
  let h8 := gRep (tryLit "</flo:logo>".data "</div>".data) h7
  let h9 := gRep (tryLit "<flo:main>".data "<main class=\"flo-main\">".data) h8
  let h10 := gRep (tryLit "</flo:main>".data "</main>".data) h9
  let h11 := gRep tryCardOpen h10
  let h12 := gRep (tryLit "</flo:card>".data "</section>".data) h11
  let h13 := gRep (tryLit "<flo:footer>".data "<footer class=\"flo-footer\">".data) h12
  let h14 := gRep (tryLit "</flo:footer>".data "</footer>".data) h13
  gRep tryLink h14

/-- The ordered structural-substitution chain of the consumer runtimes
(clientCompileFLO in runtime1, runtime12 and runtime123; the chain text
is character-for-character the same in the three files and in
server.js). -/
def clientStructuralPasses (h0 : List Char) : List Char :=
  let h1 := gRep tryPageOpen h0
  let h2 := gRep (tryLit "</flo:page>".data "</div>".data) h1
  let h3 := gRep (tryLit "<flo:header>".data "<header class=\"flo-header\">".data) h2
  let h4 := gRep (tryLit "</flo:header>".data "</header>".data) h3
  let h5 := gRep (tryLit "<flo:nav>".data "<nav class=\"flo-nav\">".data) h4
  let h6 := gRep (tryLit "</flo:nav>".data "</nav>".data) h5
  let h7 := gRep (tryLit "<flo:logo>".data "<div class=\"flo-logo\">".data) h6
  let h8 := gRep (tryLit "</flo:logo>".data "</div>".data) h7
  let h9 := gRep (tryLit "<flo:main>".data "<main class=\"flo-main\">".data) h8
  let h10 := gRep (tryLit "</flo:main>".data "</main>".data) h9
  let h11 := gRep tryCardOpen h10
  let h12 := gRep (tryLit "</flo:card>".data "</section>".data) h11
  let h13 := gRep (tryLit "<flo:footer>".data "<footer class=\"flo-footer\">".data) h12
  let h14 := gRep (tryLit "</flo:footer>".data "</footer>".data) h13
  gRep tryLink h14

/-- compileFLOtoHTML of server.js: interpolation with the or-else
replacement, then the structural chain. -/
def compileFLOtoHTML (src : List Char) (ctx : Ctx) : List Char :=
  serverStructuralPasses (gRep (tryInterp (interpServer ctx)) src)

/-- clientCompileFLO of runtime1: interpolation with the defined-check
replacement, then the structural chain. -/
def clientCompileFLO (src : List Char) (ctx : Ctx) : List Char :=
  clientStructuralPasses (gRep (tryInterp (interpClient ctx)) src)

/-- clientCompileFLO of runtime12 (same text as runtime1). -/
def clientCompileFLO12 (src : List Char) (ctx : Ctx) : List Char :=
  clientStructuralPasses (gRep (tryInterp (interpClient ctx)) src)

/-- clientCompileFLO of runtime123: interpolation with the or-else
replacement, as in server.js. -/
def clientCompileFLO123 (src : List Char) (ctx : Ctx) : List Char :=
  clientStructuralPasses (gRep (tryInterp (interpServer ctx)) src)

/-! ## The consumer pipeline (the async IIFE of runtime1) -/

/-- Events of the consumer run that we track: the key-import attempt,
the actual signature verification (with its boolean answer and the
exact data it ran over), and the invocation of the compiler (with the
exact source handed to it). -/
inductive Ev : Type
  | keyImport : Ev
  | verified : Bool → List Char → Ev
  | compiled : List Char → Ev
deriving DecidableEq

/-- Final state of the render target (document.body): one of the three
error placeholders, or the verified content. -/
inductive Render : Type
  | missingMsg : Render
  | integrityMsg : Render
  | errorMsg : Render
  | content : List Char → Render
deriving DecidableEq

/-- The innerHTML written to the body for each final state in runtime1
(the cosmetic verified banner appended after content is not part of
the placeholder strings). -/
def renderBody : Render → List Char
  | Render.missingMsg =>
      "<pre style=\"color:red\">FLO runtime: missing payload or signature or public key.</pre>".data
  | Render.integrityMsg =>
      "<pre style=\"color:red\">FLO integrity check failed. Rendering aborted.</pre>".data
  | Render.errorMsg =>
      "<pre style=\"color:red\">FLO runtime error: see console.</pre>".data
  | Render.content h => h

/-- Abstract browser facilities used by the runtime.  `atob` returns
none when the builtin would throw on invalid base64; `importKey`
returns none when the WebCrypto import rejects; `verify` is the boolean
signature check over (key, signature bytes, data bytes). -/
structure Oracles (K : Type) : Type where
  atob : List Char → Option (List Char)
  importKey : List Char → Option K
  verify : K → List Char → List Char → Bool

/-- The transport triple as found in the host document: none means the
corresponding element is absent. -/
structure Doc : Type where
  payload : Option (List Char)
  sig : Option (List Char)
  pubPem : Option (List Char)

/-- String.prototype.trim over the embedded strings. -/
def jsTrim (s : List Char) : List Char :=
  ((s.dropWhile isJsSpace).reverse.dropWhile isJsSpace).reverse

/-- Replace the first occurrence of a literal pattern by a literal
replacement (String.prototype.replace with a non-global regex), used by
pemToArrayBuffer for the PEM header and footer. -/
def replaceFirst (pat rep : List Char) : List Char → List Char
  | [] => []
  | c :: cs =>
    if pat.isEmpty then c :: cs
    else
      match stripPre pat (c :: cs) with
      | some rest => rep ++ rest
      | none => c :: replaceFirst pat rep cs

/-- pemToArrayBuffer of runtime1: strip the PEM header and footer,
remove all whitespace (the global whitespace-run replace), then
base64-decode via the abstract atob. -/
def pemToArrayBuffer (O : Oracles K) (pem : List Char) : Option (List Char) :=
  O.atob (((replaceFirst "-----END PUBLIC KEY-----".data []
            (replaceFirst "-----BEGIN PUBLIC KEY-----".data [] pem)).filter
            (fun c => !isJsSpace c)))

/-- importPublicKey of runtime1: decode the PEM body and import the
SPKI bytes.  none models a thrown atob error or a rejected import. -/
def importPublicKeyM (O : Oracles K) (pem : List Char) : Option K :=
  match pemToArrayBuffer O pem with
  | none => none
  | some der => O.importKey der

/-- The context bindings hard-coded by the runtime files. -/
def defaultCtx : Ctx :=
  fun v => if v = "user".data then some "Scholar".data else none

/-- The main flow of runtime1 as a pure function: element lookups,
trim, base64 decode of the payload, key import, signature verification
(whose own atob of the signature may throw), then compile and render.
Any thrown step inside the try block ends in the generic runtime-error
placeholder.  The second component lists the tracked events in
execution order. -/
def runPipeline (O : Oracles K) (d : Doc) : Render × List Ev :=
  match d.payload, d.sig, d.pubPem with
  | some payloadEl, some sigEl, some pubPemEl =>
    let floB64 := jsTrim payloadEl
    let sigB64 := jsTrim sigEl
    let pubPem := jsTrim pubPemEl
    match O.atob floB64 with
    | none => (Render.errorMsg, [])
    | some floSource =>
      match importPublicKeyM O pubPem with
      | none => (Render.errorMsg, [Ev.keyImport])
      | some key =>
        match O.atob sigB64 with
        | none => (Render.errorMsg, [Ev.keyImport])
        | some sigBytes =>
          let ok := O.verify key sigBytes floSource
          if ok then
            (Render.content (clientCompileFLO floSource defaultCtx),
             [Ev.keyImport, Ev.verified true floSource, Ev.compiled floSource])
          else
            (Render.integrityMsg, [Ev.keyImport, Ev.verified false floSource])
  | _, _, _ => (Render.missingMsg, [])

/-! ## Concrete fixtures used in the theorems below -/

/-- Empty bindings. -/
def ctx0 : Ctx := fun _ => none

/-- Bindings mapping the identifier a to a value that is itself a
recognized structural tag. -/
def ctxTag : Ctx :=
  fun v => if v = "a".data then some "<flo:header>".data else none

/-- Bindings mapping a to a value containing a placeholder for b, and b
to a value of its own. -/
def ctxNest : Ctx :=
  fun v =>
    if v = "a".data then some "{{b}}".data
    else if v = "b".data then some "X".data else none

/-- Browser facilities where decoding always succeeds (identity
decode), key import succeeds, and the signature verifies. -/
def oracleAccept : Oracles Unit :=
  { atob := fun s => some s, importKey := fun _ => some (),
    verify := fun _ _ _ => true }

/-- Browser facilities where decoding and key import succeed but the
signature check answers false. -/
def oracleReject : Oracles Unit :=
  { atob := fun s => some s, importKey := fun _ => some (),
    verify := fun _ _ _ => false }

/-- Browser facilities where atob throws exactly on the malformed
signature text (as the builtin does on input that is not base64), and
everything else succeeds. -/
def oracleBadSig : Oracles Unit :=
  { atob := fun s => if s = "!!!".data then none else some s,
    importKey := fun _ => some (), verify := fun _ _ _ => true }

/-- A complete transport triple. -/
def docFull : Doc :=
  { payload := some "cGF5bG9hZA==".data, sig := some "c2ln".data,
    pubPem := some "PEM".data }

/-- A transport triple whose signature text is not valid base64. -/
def docBadSig : Doc :=
  { payload := some "cGF5bG9hZA==".data, sig := some "!!!".data,
    pubPem := some "PEM".data }

/-- A transport triple with the signature element absent. -/
def docMissingSig : Doc :=
  { payload := some "cGF5bG9hZA==".data, sig := none,
    pubPem := some "PEM".data }

/-! ## Basic lemmas about the matching primitives -/

theorem stripPre_eq_some {p s r : List Char} :
    stripPre p s = some r ↔ s = p ++ r := by
  induction p generalizing s with
  | nil => simp [stripPre]
  | cons a ps ih =>
    cases s with
    | nil => simp [stripPre]
    | cons c cs =>
      by_cases h : a = c
      · subst h
        simp [stripPre, ih]
      · simp only [stripPre, if_neg h, List.cons_append]
        constructor
        · intro hh; exact absurd hh (by simp)
        · intro hh
          injection hh with h1 _
          exact absurd h1.symm h

theorem stripPre_length {p s r : List Char} (h : stripPre p s = some r) :
    s.length = p.length + r.length := by
  rw [stripPre_eq_some.mp h, List.length_append]

theorem stripPre_length_le {p s r : List Char} (h : stripPre p s = some r) :
    r.length ≤ s.length := by
  have := stripPre_length h
  omega

theorem stripPre_length_lt {p s r : List Char} (hp : p ≠ [])
    (h : stripPre p s = some r) : r.length < s.length := by
  have h1 := stripPre_length h
  have h2 : 0 < p.length := List.length_pos.mpr hp
  omega

theorem dropWhile_length_le (p : Char → Bool) (l : List Char) :
    (l.dropWhile p).length ≤ l.length := by
  induction l with
  | nil => simp [List.dropWhile]
  | cons c cs ih =>
    by_cases h : p c
    · simp only [List.dropWhile_cons, if_pos h]
      exact Nat.le_trans ih (by simp)
    · simp [List.dropWhile_cons, if_neg h]

/-- A matcher consumes at least one character at every successful
match; this holds for every pattern of the sources and keeps the fueled
global replace independent of any sufficiently large fuel. -/
def Consumes (try1 : List Char → Option (List Char × List Char)) : Prop :=
  ∀ s rep rest, try1 s = some (rep, rest) → rest.length < s.length

theorem gReplaceF_congr {t1 t2 : List Char → Option (List Char × List Char)}
    (h : ∀ s, t1 s = t2 s) : ∀ n s, gReplaceF t1 n s = gReplaceF t2 n s := by
  intro n
  induction n with
  | zero => intro s; cases s <;> rfl
  | succ n ih =>
    intro s
    cases s with
    | nil => rfl
    | cons c cs =>
      simp only [gReplaceF]
      rw [h (c :: cs)]
      cases t2 (c :: cs) with
      | none => simp only [ih]
      | some pr =>
        obtain ⟨rep, rest⟩ := pr
        simp only [ih]

theorem gReplaceF_of_not_hasMatch {t : List Char → Option (List Char × List Char)}
    {s : List Char} (h : hasMatch t s = false) :
    ∀ n, gReplaceF t n s = s := by
  induction s with
  | nil => intro n; cases n <;> rfl
  | cons c cs ih =>
    intro n
    cases n with
    | zero => rfl
    | succ n =>
      simp only [hasMatch, Bool.or_eq_false_iff] at h
      have h1 : t (c :: cs) = none := by
        cases ht : t (c :: cs) with
        | none => rfl
        | some pr => rw [ht] at h; simp at h
      simp only [gReplaceF, h1]
      rw [ih h.2]

theorem gReplaceF_fuel {t : List Char → Option (List Char × List Char)}
    (H : Consumes t) : ∀ n m s, s.length ≤ n → s.length ≤ m →
    gReplaceF t n s = gReplaceF t m s := by
  intro n
  induction n with
  | zero =>
    intro m s hn _
    have hs : s = [] := List.length_eq_zero.mp (Nat.le_zero.mp hn)
    subst hs
    cases m <;> rfl
  | succ n ih =>
    intro m s hn hm
    cases s with
    | nil => cases m <;> rfl
    | cons c cs =>
      cases m with
      | zero => simp at hm
      | succ m' =>
        simp only [List.length_cons] at hn hm
        simp only [gReplaceF]
        cases ht : t (c :: cs) with
        | none =>
          rw [ih m' cs (by omega) (by omega)]
        | some pr =>
          obtain ⟨rep, rest⟩ := pr
          have hlt := H _ _ _ ht
          simp only [List.length_cons] at hlt
          show rep ++ gReplaceF t n rest = rep ++ gReplaceF t m' rest
          rw [ih m' rest (by omega) (by omega)]

theorem gRep_cons_none {t : List Char → Option (List Char × List Char)}
    {c : Char} {cs : List Char} (h : t (c :: cs) = none) :
    gRep t (c :: cs) = c :: gRep t cs := by
  simp only [gRep, List.length_cons, gReplaceF, h]

theorem gRep_cons_some {t : List Char → Option (List Char × List Char)}
    {c : Char} {cs rep rest : List Char} (H : Consumes t)
    (h : t (c :: cs) = some (rep, rest)) :
    gRep t (c :: cs) = rep ++ gRep t rest := by
  simp only [gRep, List.length_cons, gReplaceF, h]
  have hlt := H _ _ _ h
  simp only [List.length_cons] at hlt
  rw [gReplaceF_fuel H cs.length rest.length rest (by omega) le_rfl]

theorem gRep_id {t : List Char → Option (List Char × List Char)}
    {s : List Char} (h : hasMatch t s = false) : gRep t s = s :=
  gReplaceF_of_not_hasMatch h _

theorem gRep_congr {t1 t2 : List Char → Option (List Char × List Char)}
    (h : ∀ s, t1 s = t2 s) (s : List Char) : gRep t1 s = gRep t2 s :=
  gReplaceF_congr h _ _

/-! ## Every matcher of the sources consumes input -/

theorem consumes_tryLit (pat rep : List Char) : Consumes (tryLit pat rep) := by
  intro s rep' rest h
  unfold tryLit at h
  by_cases hp : pat.isEmpty
  · rw [if_pos hp] at h; exact absurd h (by simp)
  · rw [if_neg hp] at h
    cases hs : stripPre pat s with
    | none => rw [hs] at h; exact absurd h (by simp)
    | some r =>
      rw [hs] at h
      injection h with h1
      injection h1 with _ h2
      subst h2
      exact stripPre_length_lt (by simpa [List.isEmpty_iff] using hp) hs

theorem consumes_tryInterp (val : List Char → List Char) :
    Consumes (tryInterp val) := by
  intro s rep rest h
  unfold tryInterp at h
  cases hs : stripPre ['{', '{'] s with
  | none => rw [hs] at h; exact absurd h (by simp)
  | some t =>
    rw [hs] at h
    simp only at h
    by_cases hid : ((t.dropWhile isJsSpace).takeWhile isWordChar).isEmpty
    · rw [if_pos hid] at h; exact absurd h (by simp)
    · rw [if_neg hid] at h
      cases h2 : stripPre ['}', '}']
          ((((t.dropWhile isJsSpace).drop
            ((t.dropWhile isJsSpace).takeWhile isWordChar).length)).dropWhile isJsSpace) with
      | none => rw [h2] at h; exact absurd h (by simp)
      | some r =>
        rw [h2] at h
        injection h with h1
        injection h1 with _ h3
        subst h3
        have e1 := stripPre_length_le h2
        have e2 := dropWhile_length_le isJsSpace
          ((t.dropWhile isJsSpace).drop
            ((t.dropWhile isJsSpace).takeWhile isWordChar).length)
        have e3 : (((t.dropWhile isJsSpace).drop
            ((t.dropWhile isJsSpace).takeWhile isWordChar).length)).length ≤ t.length := by
          have := dropWhile_length_le isJsSpace t
          simp only [List.length_drop]
          omega
        have e4 := stripPre_length hs
        simp only [List.length_cons, List.length_nil] at e4
        omega

theorem backtrack_some {α : Type} {k : List Char → Option α} {t : List Char}
    {r : α} : ∀ {n : Nat}, backtrack k t n = some r →
    ∃ i, k (t.drop i) = some r := by
  intro n
  induction n with
  | zero =>
    intro h
    exact ⟨0, by simpa [backtrack] using h⟩
  | succ n ih =>
    intro h
    simp only [backtrack] at h
    cases hk : k (t.drop (n + 1)) with
    | some r' =>
      rw [hk] at h
      injection h with h1
      subst h1
      exact ⟨n + 1, hk⟩
    | none =>
      rw [hk] at h
      exact ih h

theorem titledTail_length {u ttl x : List Char}
    (h : titledTail u = some (ttl, x)) : x.length < u.length := by
  unfold titledTail at h
  cases h1 : stripPre ('t' :: 'i' :: 't' :: 'l' :: 'e' :: '=' :: '"' :: []) u with
  | none => rw [h1] at h; exact absurd h (by simp)
  | some v =>
    rw [h1] at h
    simp only at h
    by_cases h2 : (v.takeWhile (fun c => c ≠ '"')).isEmpty
    · rw [if_pos h2] at h; exact absurd h (by simp)
    · rw [if_neg h2] at h
      cases h3 : stripPre ['"'] (v.drop (v.takeWhile (fun c => c ≠ '"')).length) with
      | none => rw [h3] at h; exact absurd h (by simp)
      | some w =>
        rw [h3] at h
        simp only at h
        cases h4 : stripPre ['>'] (w.drop (w.takeWhile (fun c => c ≠ '>')).length) with
        | none => rw [h4] at h; exact absurd h (by simp)
        | some x' =>
          rw [h4] at h
          injection h with h5
          injection h5 with _ h6
          subst h6
          have e1 := stripPre_length h4
          have e2 := stripPre_length h3
          have e3 := stripPre_length h1
          simp only [List.length_cons, List.length_nil, List.length_drop] at e1 e2 e3
          omega

theorem consumes_tryTitled (openLit : List Char) (mkRep : List Char → List Char)
    (hp : openLit ≠ []) : Consumes (tryTitled openLit mkRep) := by
  intro s rep rest h
  unfold tryTitled at h
  cases h1 : stripPre openLit s with
  | none => rw [h1] at h; exact absurd h (by simp)
  | some t =>
    rw [h1] at h
    simp only at h
    cases h2 : backtrack titledTail t ((t.takeWhile (fun c => c ≠ '>')).length) with
    | none => rw [h2] at h; exact absurd h (by simp)
    | some pr =>
      obtain ⟨ttl, rest'⟩ := pr
      rw [h2] at h
      injection h with h3
      injection h3 with _ h4
      subst h4
      obtain ⟨i, hi⟩ := backtrack_some h2
      have e1 := titledTail_length hi
      have e2 : (t.drop i).length ≤ t.length := by
        simp only [List.length_drop]; omega
      have e3 := stripPre_length_lt hp h1
      omega

theorem consumes_tryPageOpen : Consumes tryPageOpen :=
  consumes_tryTitled _ _ (by decide)

theorem consumes_tryCardOpen : Consumes tryCardOpen :=
  consumes_tryTitled _ _ (by decide)

theorem lazyScan_length {close : List Char} :
    ∀ {t acc inner rest : List Char}, lazyScan close t acc = some (inner, rest) →
    rest.length ≤ t.length := by
  intro t
  induction t with
  | nil =>
    intro acc inner rest h
    simp only [lazyScan] at h
    cases h1 : stripPre close [] with
    | none => rw [h1] at h; exact absurd h (by simp)
    | some r =>
      rw [h1] at h
      injection h with h2
      injection h2 with _ h3
      subst h3
      exact stripPre_length_le h1
  | cons c cs ih =>
    intro acc inner rest h
    simp only [lazyScan] at h
    cases h1 : stripPre close (c :: cs) with
    | none =>
      rw [h1] at h
      by_cases h2 : isLineTerm c
      · rw [if_pos h2] at h; exact absurd h (by simp)
      · rw [if_neg h2] at h
        have := ih h
        simp only [List.length_cons]
        omega
    | some r =>
      rw [h1] at h
      injection h with h2
      injection h2 with _ h3
      subst h3
      exact stripPre_length_le h1

theorem consumes_tryLink : Consumes tryLink := by
  intro s rep rest h
  unfold tryLink at h
  cases h1 : stripPre "<flo:link href=\"".data s with
  | none => rw [h1] at h; exact absurd h (by simp)
  | some t =>
    rw [h1] at h
    simp only at h
    by_cases h2 : (t.takeWhile (fun c => c ≠ '"')).isEmpty
    · rw [if_pos h2] at h; exact absurd h (by simp)
    · rw [if_neg h2] at h
      cases h3 : stripPre ['"'] (t.drop (t.takeWhile (fun c => c ≠ '"')).length) with
      | none => rw [h3] at h; exact absurd h (by simp)
      | some u =>
        rw [h3] at h
        simp only at h
        cases h4 : stripPre ['>'] (u.drop (u.takeWhile (fun c => c ≠ '>')).length) with
        | none => rw [h4] at h; exact absurd h (by simp)
        | some v =>
          rw [h4] at h
          simp only at h
          cases h5 : lazyScan "</flo:link>".data v [] with
          | none => rw [h5] at h; exact absurd h (by simp)
          | some pr =>
            obtain ⟨inner, rest'⟩ := pr
            rw [h5] at h
            injection h with h6
            injection h6 with _ h7
            subst h7
            have e1 := lazyScan_length h5
            have e2 := stripPre_length h4
            have e3 := stripPre_length h3
            have e4 := stripPre_length h1
            simp only [List.length_cons, List.length_nil, List.length_drop] at e2 e3 e4
            have e5 : (0:Nat) < "<flo:link href=\"".data.length := by decide
            omega

/-! ## The consumer pipeline: characterization and claims -/

/-- Every consumer run ends in exactly one of five shapes: verified
content with the full event trace, integrity abort after a false
verification, runtime-error abort after key import, runtime-error abort
before any cryptographic call, or the missing-input abort. -/
theorem runPipeline_cases {K : Type} (O : Oracles K) (d : Doc) :
    (∃ fs, runPipeline O d =
      (Render.content (clientCompileFLO fs defaultCtx),
       [Ev.keyImport, Ev.verified true fs, Ev.compiled fs])) ∨
    (∃ fs, runPipeline O d =
      (Render.integrityMsg, [Ev.keyImport, Ev.verified false fs])) ∨
    runPipeline O d = (Render.errorMsg, [Ev.keyImport]) ∨
    runPipeline O d = (Render.errorMsg, []) ∨
    runPipeline O d = (Render.missingMsg, []) := by
  obtain ⟨p, sg, pm⟩ := d
  cases p with
  | none => cases sg <;> cases pm <;> exact Or.inr (Or.inr (Or.inr (Or.inr rfl)))
  | some pEl =>
    cases sg with
    | none => cases pm <;> exact Or.inr (Or.inr (Or.inr (Or.inr rfl)))
    | some sEl =>
      cases pm with
      | none => exact Or.inr (Or.inr (Or.inr (Or.inr rfl)))
      | some kEl =>
        unfold runPipeline
        simp only
        cases h1 : O.atob (jsTrim pEl) with
        | none => exact Or.inr (Or.inr (Or.inr (Or.inl rfl)))
        | some fs =>
          cases h2 : importPublicKeyM O (jsTrim kEl) with
          | none => exact Or.inr (Or.inr (Or.inl rfl))
          | some key =>
            cases h3 : O.atob (jsTrim sEl) with
            | none => exact Or.inr (Or.inr (Or.inl rfl))
            | some sigBytes =>
              cases h4 : O.verify key sigBytes fs with
              | true =>
                refine Or.inl ⟨fs, ?_⟩
                show (if O.verify key sigBytes fs = true then
                        (Render.content (clientCompileFLO fs defaultCtx),
                         [Ev.keyImport, Ev.verified true fs, Ev.compiled fs])
                      else
                        (Render.integrityMsg,
                         [Ev.keyImport, Ev.verified false fs])) = _
                rw [h4, if_pos rfl]
              | false =>
                refine Or.inr (Or.inl ⟨fs, ?_⟩)
                show (if O.verify key sigBytes fs = true then
                        (Render.content (clientCompileFLO fs defaultCtx),
                         [Ev.keyImport, Ev.verified true fs, Ev.compiled fs])
                      else
                        (Render.integrityMsg,
                         [Ev.keyImport, Ev.verified false fs])) = _
                rw [h4, if_neg (by simp)]

/-- C1: compilation happens only in runs whose event trace contains a
successful verification over the very same decoded source, strictly
earlier; a false verification leaves the integrity placeholder as the
only content of the render target and no compilation event exists. -/
theorem pipeline_verification_precedes_compilation {K : Type}
    (O : Oracles K) (d : Doc) :
    (∀ src, Ev.compiled src ∈ (runPipeline O d).2 →
      (∃ l1 l2 l3, (runPipeline O d).2 =
        l1 ++ Ev.verified true src :: l2 ++ Ev.compiled src :: l3) ∧
      (runPipeline O d).1 = Render.content (clientCompileFLO src defaultCtx)) ∧
    (∀ src, Ev.verified false src ∈ (runPipeline O d).2 →
      (runPipeline O d).1 = Render.integrityMsg ∧
      (∀ s, Ev.compiled s ∉ (runPipeline O d).2) ∧
      renderBody (runPipeline O d).1 =
        "<pre style=\"color:red\">FLO integrity check failed. Rendering aborted.</pre>".data) := by
  rcases runPipeline_cases O d with ⟨fs, h⟩ | ⟨fs, h⟩ | h | h | h <;> rw [h]
  · constructor
    · intro src hm
      simp only [List.mem_cons, List.not_mem_nil, or_false] at hm
      rcases hm with h1 | h1 | h1
      · exact absurd h1 (by simp)
      · exact absurd h1 (by simp)
      · injection h1 with h2
        subst h2
        exact ⟨⟨[Ev.keyImport], [], [], rfl⟩, rfl⟩
    · intro src hm
      simp only [List.mem_cons, List.not_mem_nil, or_false] at hm
      rcases hm with h1 | h1 | h1 <;> exact absurd h1 (by simp)
  · constructor
    · intro src hm
      simp only [List.mem_cons, List.not_mem_nil, or_false] at hm
      rcases hm with h1 | h1 <;> exact absurd h1 (by simp)
    · intro src hm
      refine ⟨rfl, ?_, rfl⟩
      intro s hs
      simp only [List.mem_cons, List.not_mem_nil, or_false] at hs
      rcases hs with h1 | h1 <;> exact absurd h1 (by simp)
  · constructor
    · intro src hm
      simp only [List.mem_cons, List.not_mem_nil, or_false] at hm
      exact absurd hm (by simp)
    · intro src hm
      simp only [List.mem_cons, List.not_mem_nil, or_false] at hm
      exact absurd hm (by simp)
  · constructor
    · intro src hm; exact absurd hm (by simp)
    · intro src hm; exact absurd hm (by simp)
  · constructor
    · intro src hm; exact absurd hm (by simp)
    · intro src hm; exact absurd hm (by simp)

/-- Witness for C1 at concrete inputs: an accepting run compiles
exactly the decoded source after the successful verification event. -/
theorem pipeline_verification_precedes_compilation_witness :
    Ev.compiled "cGF5bG9hZA==".data ∈ (runPipeline oracleAccept docFull).2 ∧
    ((∃ l1 l2 l3, (runPipeline oracleAccept docFull).2 =
        l1 ++ Ev.verified true "cGF5bG9hZA==".data :: l2 ++
          Ev.compiled "cGF5bG9hZA==".data :: l3) ∧
      (runPipeline oracleAccept docFull).1 =
        Render.content (clientCompileFLO "cGF5bG9hZA==".data defaultCtx)) :=
  ⟨by decide,
   (pipeline_verification_precedes_compilation oracleAccept docFull).1
     "cGF5bG9hZA==".data (by decide)⟩

/-- C9: when any of the three transport elements is absent the run ends
in the missing-input abort with its generic message, and the event
trace is empty: no key import and no verification is attempted. -/
theorem missing_transport_element_aborts_before_crypto {K : Type}
    (O : Oracles K) (d : Doc)
    (h : d.payload = none ∨ d.sig = none ∨ d.pubPem = none) :
    runPipeline O d = (Render.missingMsg, []) ∧
    renderBody (runPipeline O d).1 =
      "<pre style=\"color:red\">FLO runtime: missing payload or signature or public key.</pre>".data := by
  obtain ⟨p, sg, pm⟩ := d
  cases p <;> cases sg <;> cases pm <;>
    first
      | exact ⟨rfl, rfl⟩
      | (exfalso; rcases h with h1 | h1 | h1 <;> simp at h1)

/-- Witness for C9: a triple with the signature element absent. -/
theorem missing_transport_element_aborts_before_crypto_witness :
    (docMissingSig.payload = none ∨ docMissingSig.sig = none ∨
      docMissingSig.pubPem = none) ∧
    runPipeline oracleAccept docMissingSig = (Render.missingMsg, []) :=
  ⟨Or.inr (Or.inl rfl),
   (missing_transport_element_aborts_before_crypto oracleAccept docMissingSig
     (Or.inr (Or.inl rfl))).1⟩

/-- Counterexample to C2 as stated: a malformed (non-base64) signature
makes atob throw inside verifySignature, which the top-level catch maps
to the runtime-error placeholder, while a signature mismatch yields the
integrity placeholder; the two user-visible messages differ, so
MalformedInput is externally distinguishable from SignatureMismatch. -/
theorem malformed_signature_presentation_differs :
    (runPipeline oracleBadSig docBadSig).1 = Render.errorMsg ∧
    (runPipeline oracleReject docFull).1 = Render.integrityMsg ∧
    renderBody Render.errorMsg ≠ renderBody Render.integrityMsg := by
  refine ⟨by decide, by decide, by decide⟩

/-- C2 as amended: every failure after a key-import attempt is mapped
to one of the two user-visible abort states (runtime-error or
integrity abort) unless the run succeeds; but a MalformedInput failure
in the signature is presented as the runtime-error abort, which is
externally distinguishable from the SignatureMismatch integrity
abort. -/
theorem failures_downstream_key_import_two_states {K : Type}
    (O : Oracles K) (d : Doc)
    (h : Ev.keyImport ∈ (runPipeline O d).2) :
    ((runPipeline O d).1 = Render.errorMsg ∨
     (runPipeline O d).1 = Render.integrityMsg ∨
     ∃ fs, (runPipeline O d).1 = Render.content (clientCompileFLO fs defaultCtx)) ∧
    (runPipeline oracleBadSig docBadSig).1 = Render.errorMsg ∧
    (runPipeline oracleReject docFull).1 = Render.integrityMsg ∧
    renderBody Render.errorMsg ≠ renderBody Render.integrityMsg := by
  refine ⟨?_, by decide, by decide, by decide⟩
  rcases runPipeline_cases O d with ⟨fs, hc⟩ | ⟨fs, hc⟩ | hc | hc | hc <;> rw [hc]
  · exact Or.inr (Or.inr ⟨fs, rfl⟩)
  · exact Or.inr (Or.inl rfl)
  · exact Or.inl rfl
  · rw [hc] at h; exact absurd h (by simp)
  · rw [hc] at h; exact absurd h (by simp)

/-- Witness for the amended C2 at a concrete failing run. -/
theorem failures_downstream_key_import_two_states_witness :
    Ev.keyImport ∈ (runPipeline oracleReject docFull).2 ∧
    ((runPipeline oracleReject docFull).1 = Render.errorMsg ∨
     (runPipeline oracleReject docFull).1 = Render.integrityMsg ∨
     ∃ fs, (runPipeline oracleReject docFull).1 =
       Render.content (clientCompileFLO fs defaultCtx)) :=
  ⟨by decide,
   (failures_downstream_key_import_two_states oracleReject docFull (by decide)).1⟩

/-! ## Compiler equivalence and totality -/

/-- For string values the two interpolation replacements of the
sources coincide: the defined-check of runtime1/runtime12 and the
or-else idiom of server.js/runtime123 agree on every lookup. -/
theorem interp_val_eq (ctx : Ctx) (v : List Char) :
    interpServer ctx v = interpClient ctx v := by
  unfold interpServer interpClient
  cases h : ctx v with
  | none => rfl
  | some s => cases s <;> rfl

/-- The interpolation matcher depends on its valuation only through the
replacement it emits. -/
theorem tryInterp_congr (v1 v2 : List Char → List Char)
    (h : ∀ x, v1 x = v2 x) (s : List Char) :
    tryInterp v1 s = tryInterp v2 s := by
  simp only [tryInterp, h]

/-- The four compilers agree on every source and every string-to-string
bindings mapping (helper shared by the claim theorems below). -/
theorem compile_agree (src : List Char) (ctx : Ctx) :
    compileFLOtoHTML src ctx = clientCompileFLO src ctx ∧
    clientCompileFLO12 src ctx = clientCompileFLO src ctx ∧
    clientCompileFLO123 src ctx = clientCompileFLO src ctx := by
  have hstruct : serverStructuralPasses = clientStructuralPasses := rfl
  have hi : ∀ s, tryInterp (interpServer ctx) s = tryInterp (interpClient ctx) s :=
    tryInterp_congr _ _ (interp_val_eq ctx)
  refine ⟨?_, rfl, ?_⟩
  · unfold compileFLOtoHTML clientCompileFLO
    rw [hstruct, gRep_congr hi]
  · unfold clientCompileFLO123 clientCompileFLO
    rw [gRep_congr hi]

/-- C4: the producer-side compiler and the consumer-side compilers of
all three runtime variants produce identical output for every (source,
bindings) pair. -/
theorem producer_consumer_compilers_agree (src : List Char) (ctx : Ctx) :
    compileFLOtoHTML src ctx = clientCompileFLO src ctx ∧
    clientCompileFLO12 src ctx = clientCompileFLO src ctx ∧
    clientCompileFLO123 src ctx = clientCompileFLO src ctx :=
  compile_agree src ctx

/-- C8: the compiler is total: for every source and bindings, each of
the four compiler functions returns an output string (one and the same
string), and malformed input such as an unknown self-closing tag next
to an unbalanced titleless page tag and a truncated closing tag is a
non-fatal outcome that passes through unchanged rather than an
exception. -/
theorem compiler_total_on_all_inputs (src : List Char) (ctx : Ctx) :
    (∃ out : List Char, clientCompileFLO src ctx = out ∧
      compileFLOtoHTML src ctx = out ∧
      clientCompileFLO12 src ctx = out ∧
      clientCompileFLO123 src ctx = out) ∧
    clientCompileFLO "<flo:page><flo:widget/></flo:page".data ctx0 =
      "<flo:page><flo:widget/></flo:page".data := by
  obtain ⟨h1, h2, h3⟩ := compile_agree src ctx
  exact ⟨⟨clientCompileFLO src ctx, rfl, h1, h2, h3⟩, by decide⟩

/-! ## Passthrough when nothing matches -/

/-- If none of the fifteen structural patterns matches anywhere in the
input, the structural chain is the identity. -/
theorem structuralPasses_id (s : List Char)
    (h1 : hasMatch tryPageOpen s = false)
    (h2 : hasMatch (tryLit "</flo:page>".data "</div>".data) s = false)
    (h3 : hasMatch (tryLit "<flo:header>".data "<header class=\"flo-header\">".data) s = false)
    (h4 : hasMatch (tryLit "</flo:header>".data "</header>".data) s = false)
    (h5 : hasMatch (tryLit "<flo:nav>".data "<nav class=\"flo-nav\">".data) s = false)
    (h6 : hasMatch (tryLit "</flo:nav>".data "</nav>".data) s = false)
    (h7 : hasMatch (tryLit "<flo:logo>".data "<div class=\"flo-logo\">".data) s = false)
    (h8 : hasMatch (tryLit "</flo:logo>".data "</div>".data) s = false)
    (h9 : hasMatch (tryLit "<flo:main>".data "<main class=\"flo-main\">".data) s = false)
    (h10 : hasMatch (tryLit "</flo:main>".data "</main>".data) s = false)
    (h11 : hasMatch tryCardOpen s = false)
    (h12 : hasMatch (tryLit "</flo:card>".data "</section>".data) s = false)
    (h13 : hasMatch (tryLit "<flo:footer>".data "<footer class=\"flo-footer\">".data) s = false)
    (h14 : hasMatch (tryLit "</flo:footer>".data "</footer>".data) s = false)
    (h15 : hasMatch tryLink s = false) :
    clientStructuralPasses s = s := by
  simp only [clientStructuralPasses]
  rw [gRep_id h1, gRep_id h2, gRep_id h3, gRep_id h4, gRep_id h5, gRep_id h6,
      gRep_id h7, gRep_id h8, gRep_id h9, gRep_id h10, gRep_id h11,
      gRep_id h12, gRep_id h13, gRep_id h14, gRep_id h15]

/-- C6: a source in which neither the placeholder pattern nor any of
the fifteen structural patterns matches anywhere is returned unchanged,
character for character. -/
theorem unmatched_source_passes_through (src : List Char) (ctx : Ctx)
    (h0 : hasMatch (tryInterp (interpClient ctx)) src = false)
    (h1 : hasMatch tryPageOpen src = false)
    (h2 : hasMatch (tryLit "</flo:page>".data "</div>".data) src = false)
    (h3 : hasMatch (tryLit "<flo:header>".data "<header class=\"flo-header\">".data) src = false)
    (h4 : hasMatch (tryLit "</flo:header>".data "</header>".data) src = false)
    (h5 : hasMatch (tryLit "<flo:nav>".data "<nav class=\"flo-nav\">".data) src = false)
    (h6 : hasMatch (tryLit "</flo:nav>".data "</nav>".data) src = false)
    (h7 : hasMatch (tryLit "<flo:logo>".data "<div class=\"flo-logo\">".data) src = false)
    (h8 : hasMatch (tryLit "</flo:logo>".data "</div>".data) src = false)
    (h9 : hasMatch (tryLit "<flo:main>".data "<main class=\"flo-main\">".data) src = false)
    (h10 : hasMatch (tryLit "</flo:main>".data "</main>".data) src = false)
    (h11 : hasMatch tryCardOpen src = false)
    (h12 : hasMatch (tryLit "</flo:card>".data "</section>".data) src = false)
    (h13 : hasMatch (tryLit "<flo:footer>".data "<footer class=\"flo-footer\">".data) src = false)
    (h14 : hasMatch (tryLit "</flo:footer>".data "</footer>".data) src = false)
    (h15 : hasMatch tryLink src = false) :
    clientCompileFLO src ctx = src := by
  unfold clientCompileFLO
  rw [gRep_id h0]
  exact structuralPasses_id src h1 h2 h3 h4 h5 h6 h7 h8 h9 h10 h11 h12 h13 h14 h15

/-- Witness for C6: the unknown self-closing tag of the specification
scenario matches no pattern and passes through byte for byte. -/
theorem unmatched_source_passes_through_witness :
    (hasMatch (tryInterp (interpClient ctx0)) "<flo:widget/>".data = false ∧
     hasMatch tryPageOpen "<flo:widget/>".data = false ∧
     hasMatch tryCardOpen "<flo:widget/>".data = false ∧
     hasMatch tryLink "<flo:widget/>".data = false) ∧
    clientCompileFLO "<flo:widget/>".data ctx0 = "<flo:widget/>".data :=
  ⟨⟨by decide, by decide, by decide, by decide⟩,
   unmatched_source_passes_through "<flo:widget/>".data ctx0 (by decide)
     (by decide) (by decide) (by decide) (by decide) (by decide) (by decide)
     (by decide) (by decide) (by decide) (by decide) (by decide) (by decide)
     (by decide) (by decide) (by decide)⟩

/-! ## The interpolation pattern on well-formed placeholders -/

theorem word_not_space {c : Char} (h : isWordChar c = true) :
    isJsSpace c = false := by
  simp only [isWordChar, Bool.or_eq_true, Bool.and_eq_true,
    decide_eq_true_eq] at h
  by_contra hsp
  have hsp' : isJsSpace c = true := by
    revert hsp; cases isJsSpace c <;> simp
  simp only [isJsSpace, Bool.or_eq_true, Bool.and_eq_true,
    decide_eq_true_eq] at hsp'
  omega

theorem space_not_word {c : Char} (h : isJsSpace c = true) :
    isWordChar c = false := by
  simp only [isJsSpace, Bool.or_eq_true, Bool.and_eq_true,
    decide_eq_true_eq] at h
  by_contra hw
  have hw' : isWordChar c = true := by
    revert hw; cases isWordChar c <;> simp
  simp only [isWordChar, Bool.or_eq_true, Bool.and_eq_true,
    decide_eq_true_eq] at hw'
  omega

theorem dropWhile_append_of_all {p : Char → Bool} {a b : List Char}
    (h : ∀ c ∈ a, p c = true) :
    (a ++ b).dropWhile p = b.dropWhile p := by
  induction a with
  | nil => rfl
  | cons x xs ih =>
    rw [List.cons_append, List.dropWhile_cons_of_pos (h x (List.mem_cons_self x xs))]
    exact ih fun c hc => h c (List.mem_cons_of_mem x hc)

theorem takeWhile_append_of_all_stop {p : Char → Bool} {a : List Char}
    {c : Char} {b : List Char}
    (ha : ∀ x ∈ a, p x = true) (hc : p c = false) :
    (a ++ c :: b).takeWhile p = a := by
  induction a with
  | nil =>
    rw [List.nil_append, List.takeWhile_cons_of_neg (by simp [hc])]
  | cons x xs ih =>
    rw [List.cons_append, List.takeWhile_cons_of_pos (ha x (List.mem_cons_self x xs))]
    rw [ih fun y hy => ha y (List.mem_cons_of_mem x hy)]

theorem takeWhile_word_prefix (ident ws2 rest : List Char)
    (hword : ∀ c ∈ ident, isWordChar c = true)
    (hws2 : ∀ c ∈ ws2, isJsSpace c = true) :
    (ident ++ (ws2 ++ '}' :: '}' :: rest)).takeWhile isWordChar = ident := by
  cases ws2 with
  | nil => exact takeWhile_append_of_all_stop hword (by decide)
  | cons w ws =>
    have hw : isWordChar w = false := space_not_word (hws2 w (List.mem_cons_self w ws))
    rw [List.cons_append]
    exact takeWhile_append_of_all_stop hword hw

/-- Behaviour of the interpolation matcher on a well-formed
placeholder: the whole placeholder is consumed and replaced by the
valuation of the captured identifier; the scan resumes after the
closing braces. -/
theorem tryInterp_match (val : List Char → List Char)
    (ws1 ident ws2 rest : List Char)
    (hws1 : ∀ c ∈ ws1, isJsSpace c = true)
    (hws2 : ∀ c ∈ ws2, isJsSpace c = true)
    (hne : ident ≠ [])
    (hword : ∀ c ∈ ident, isWordChar c = true) :
    tryInterp val ('{' :: '{' :: (ws1 ++ (ident ++ (ws2 ++ '}' :: '}' :: rest)))) =
      some (val ident, rest) := by
  cases ident with
  | nil => exact absurd rfl hne
  | cons i0 itl =>
    show (if (((ws1 ++ (i0 :: itl ++ (ws2 ++ '}' :: '}' :: rest))).dropWhile
            isJsSpace).takeWhile isWordChar).isEmpty then none
      else
        match stripPre ['}', '}']
          ((((ws1 ++ (i0 :: itl ++ (ws2 ++ '}' :: '}' :: rest))).dropWhile
              isJsSpace).drop
            (((ws1 ++ (i0 :: itl ++ (ws2 ++ '}' :: '}' :: rest))).dropWhile
              isJsSpace).takeWhile isWordChar).length).dropWhile isJsSpace) with
        | none => none
        | some r =>
          some (val (((ws1 ++ (i0 :: itl ++ (ws2 ++ '}' :: '}' :: rest))).dropWhile
            isJsSpace).takeWhile isWordChar), r)) = some (val (i0 :: itl), rest)
    have hi0 : isWordChar i0 = true := hword i0 (List.mem_cons_self i0 itl)
    have hA : (ws1 ++ (i0 :: itl ++ (ws2 ++ '}' :: '}' :: rest))).dropWhile
        isJsSpace = i0 :: (itl ++ (ws2 ++ '}' :: '}' :: rest)) := by
      rw [dropWhile_append_of_all hws1, List.cons_append,
        List.dropWhile_cons_of_neg (by simp [word_not_space hi0])]
    rw [hA]
    have hident : (i0 :: (itl ++ (ws2 ++ '}' :: '}' :: rest))).takeWhile
        isWordChar = i0 :: itl := by
      have := takeWhile_word_prefix (i0 :: itl) ws2 rest hword hws2
      rwa [List.cons_append] at this
    rw [hident]
    have hdrop : (i0 :: (itl ++ (ws2 ++ '}' :: '}' :: rest))).drop
        (i0 :: itl).length = ws2 ++ '}' :: '}' :: rest := by
      rw [List.length_cons, List.drop_succ_cons, List.drop_left]
    rw [hdrop]
    have hws2d : (ws2 ++ '}' :: '}' :: rest).dropWhile isJsSpace =
        '}' :: '}' :: rest := by
      rw [dropWhile_append_of_all hws2,
        List.dropWhile_cons_of_neg (by decide)]
    rw [hws2d]
    rfl

/-- C7: a well-formed placeholder whose identifier has no entry in the
bindings mapping is replaced by the empty string, and in particular the
specification scenario compiles to the text with an empty
substitution on both sides. -/
theorem unbound_placeholder_replaced_empty (ctx : Ctx)
    (ws1 ident ws2 rest : List Char)
    (hws1 : ∀ c ∈ ws1, isJsSpace c = true)
    (hws2 : ∀ c ∈ ws2, isJsSpace c = true)
    (hne : ident ≠ [])
    (hword : ∀ c ∈ ident, isWordChar c = true)
    (hub : ctx ident = none) :
    tryInterp (interpClient ctx)
      ('{' :: '{' :: (ws1 ++ (ident ++ (ws2 ++ '}' :: '}' :: rest)))) =
      some ([], rest) ∧
    clientCompileFLO "Hi {{user}}".data ctx0 = "Hi ".data ∧
    compileFLOtoHTML "Hi {{user}}".data ctx0 = "Hi ".data := by
  refine ⟨?_, by decide, by decide⟩
  rw [tryInterp_match (interpClient ctx) ws1 ident ws2 rest hws1 hws2 hne hword]
  simp [interpClient, hub]

/-- Witness for C7 at a concrete placeholder with whitespace. -/
theorem unbound_placeholder_replaced_empty_witness :
    ((∀ c ∈ [' '], isJsSpace c = true) ∧ "user".data ≠ [] ∧
      (∀ c ∈ "user".data, isWordChar c = true) ∧ ctx0 "user".data = none) ∧
    tryInterp (interpClient ctx0)
      ('{' :: '{' :: ([' '] ++ ("user".data ++ ([] ++ '}' :: '}' :: "!".data)))) =
      some ([], "!".data) :=
  ⟨⟨by decide, by decide, by decide, rfl⟩,
   (unbound_placeholder_replaced_empty ctx0 [' '] "user".data [] "!".data
     (by decide) (by decide) (by decide) (by decide) rfl).1⟩

/-- Counterexample to C3 as stated: a binding value that is itself a
recognized structural tag does not appear literally in the output; the
structural passes run after interpolation over the whole string and
rewrite it. -/
theorem structural_tag_binding_value_reexpanded :
    clientCompileFLO "{{a}}".data ctxTag = "<header class=\"flo-header\">".data ∧
    ¬ "<flo:header>".data <:+: clientCompileFLO "{{a}}".data ctxTag :=
  ⟨by decide, by decide⟩

/-- C3 as amended: the interpolation pass substitutes each placeholder
exactly once and resumes scanning after it, never rescanning the
substituted value (so a value containing a placeholder stays literal
through interpolation, as the concrete second conjunct shows); a value
containing a structural tag is however rewritten by the subsequent
structural-substitution passes. -/
theorem interpolation_pass_never_rescans (ctx : Ctx)
    (ws1 ident ws2 rest : List Char)
    (hws1 : ∀ c ∈ ws1, isJsSpace c = true)
    (hws2 : ∀ c ∈ ws2, isJsSpace c = true)
    (hne : ident ≠ [])
    (hword : ∀ c ∈ ident, isWordChar c = true) :
    gRep (tryInterp (interpClient ctx))
      ('{' :: '{' :: (ws1 ++ (ident ++ (ws2 ++ '}' :: '}' :: rest)))) =
      interpClient ctx ident ++ gRep (tryInterp (interpClient ctx)) rest ∧
    gRep (tryInterp (interpClient ctxNest)) "{{a}}".data = "{{b}}".data ∧
    clientCompileFLO "{{a}}".data ctxTag = "<header class=\"flo-header\">".data := by
  refine ⟨?_, by decide, by decide⟩
  exact gRep_cons_some (consumes_tryInterp _)
    (tryInterp_match _ ws1 ident ws2 rest hws1 hws2 hne hword)

/-- Witness for the amended C3 at a concrete placeholder. -/
theorem interpolation_pass_never_rescans_witness :
    ("a".data ≠ [] ∧ (∀ c ∈ "a".data, isWordChar c = true)) ∧
    gRep (tryInterp (interpClient ctxNest))
      ('{' :: '{' :: ([] ++ ("a".data ++ ([] ++ '}' :: '}' :: [])))) =
      interpClient ctxNest "a".data ++
        gRep (tryInterp (interpClient ctxNest)) [] :=
  ⟨⟨by decide, by decide⟩,
   (interpolation_pass_never_rescans ctxNest [] "a".data [] []
     (by decide) (by decide) (by decide) (by decide)).1⟩

/-! ## Titled open tags and the link pattern -/

/-- Counterexample to C5 as stated: a page (or card) open tag without a
title attribute is not rewritten to its wrapper element; it passes
through unchanged while its closing tag is still rewritten. -/
theorem titleless_page_tag_not_rewritten :
    clientCompileFLO "<flo:page>x</flo:page>".data ctx0 =
      "<flo:page>x</div>".data ∧
    ¬ "<div class=\"flo-page\"".data <:+:
        clientCompileFLO "<flo:page>x</flo:page>".data ctx0 ∧
    clientCompileFLO "<flo:card>y</flo:card>".data ctx0 =
      "<flo:card>y</section>".data :=
  ⟨by decide, by decide, by decide⟩

/-- C5 as amended: a page or card open tag is rewritten to its wrapper
element only when a title attribute with a nonempty value is present
(the title is then carried as the data-title attribute); an open tag
without a title attribute is not transformed, while the closing tags
are rewritten unconditionally. -/
theorem titled_open_tags_rewritten_only_with_title (rest : List Char) :
    tryPageOpen ("<flo:page title=\"Home\">".data ++ rest) =
      some ("<div class=\"flo-page\" data-title=\"Home\">".data, rest) ∧
    tryPageOpen ("<flo:page>".data ++ rest) = none ∧
    tryCardOpen ("<flo:card title=\"Note\">".data ++ rest) =
      some ("<section class=\"flo-card\" data-title=\"Note\">".data, rest) ∧
    tryCardOpen ("<flo:card>".data ++ rest) = none ∧
    tryLit "</flo:page>".data "</div>".data ("</flo:page>".data ++ rest) =
      some ("</div>".data, rest) ∧
    tryLit "</flo:card>".data "</section>".data ("</flo:card>".data ++ rest) =
      some ("</section>".data, rest) :=
  ⟨rfl, rfl, rfl, rfl, rfl, rfl⟩

/-- The lazy inner-text scan fails when a line terminator occurs before
any occurrence of the closing literal. -/
theorem lazyScan_none_of_newline {close : List Char} :
    ∀ (a : List Char) (nl : Char) (b acc : List Char),
    isLineTerm nl = true →
    (∀ i, i ≤ a.length → stripPre close ((a ++ nl :: b).drop i) = none) →
    lazyScan close (a ++ nl :: b) acc = none := by
  intro a
  induction a with
  | nil =>
    intro nl b acc hnl hno
    have h0 : stripPre close (nl :: b) = none := by
      have := hno 0 (by omega)
      simpa using this
    simp only [List.nil_append, lazyScan, h0, hnl, if_true]
  | cons x xs ih =>
    intro nl b acc hnl hno
    have h0 : stripPre close (x :: (xs ++ nl :: b)) = none := by
      have := hno 0 (by omega)
      simpa using this
    rw [List.cons_append]
    simp only [lazyScan, h0]
    cases hx : isLineTerm x with
    | true => simp
    | false =>
      simp only [Bool.false_eq_true, if_false]
      exact ih nl b (x :: acc) hnl fun i hi => by
        have := hno (i + 1) (by simp only [List.length_cons]; omega)
        simpa using this

/-- C10: a link element whose inner text contains a line terminator
before the closing link tag is not matched by the link pattern (the
lazy dot-star cannot cross line breaks), and such an element passes
through the whole compiler unchanged. -/
theorem link_inner_text_newline_blocks_rewrite
    (hrf a b : List Char) (nl : Char)
    (hh1 : hrf ≠ [])
    (hh2 : ∀ c ∈ hrf, c ≠ '"')
    (hnl : isLineTerm nl = true)
    (hno : ∀ i, i ≤ a.length →
      stripPre "</flo:link>".data ((a ++ nl :: b).drop i) = none) :
    tryLink ("<flo:link href=\"".data ++ (hrf ++ ('"' :: '>' :: (a ++ nl :: b)))) =
      none ∧
    clientCompileFLO "<flo:link href=\"u\">a\nb</flo:link>".data ctx0 =
      "<flo:link href=\"u\">a\nb</flo:link>".data := by
  refine ⟨?_, by decide⟩
  have htake : (hrf ++ ('"' :: '>' :: (a ++ nl :: b))).takeWhile
      (fun c => c ≠ '"') = hrf :=
    takeWhile_append_of_all_stop (fun x hx => by simpa using hh2 x hx) (by decide)
  have hdrop : (hrf ++ ('"' :: '>' :: (a ++ nl :: b))).drop hrf.length =
      '"' :: '>' :: (a ++ nl :: b) := List.drop_left _ _
  have hempty : hrf.isEmpty = false := by
    cases hrf with
    | nil => exact absurd rfl hh1
    | cons _ _ => rfl
  cases h : tryLink ("<flo:link href=\"".data ++
      (hrf ++ ('"' :: '>' :: (a ++ nl :: b)))) with
  | none => rfl
  | some pr =>
    exfalso
    unfold tryLink at h
    rw [show stripPre "<flo:link href=\"".data ("<flo:link href=\"".data ++
        (hrf ++ ('"' :: '>' :: (a ++ nl :: b)))) =
        some (hrf ++ ('"' :: '>' :: (a ++ nl :: b)))
      from stripPre_eq_some.mpr rfl] at h
    simp only at h
    rw [htake, hempty] at h
    rw [if_neg (by simp)] at h
    rw [hdrop] at h
    rw [show stripPre ['"'] ('"' :: '>' :: (a ++ nl :: b)) =
        some ('>' :: (a ++ nl :: b)) from rfl] at h
    simp only at h
    rw [show stripPre ['>'] (('>' :: (a ++ nl :: b)).drop
        (('>' :: (a ++ nl :: b)).takeWhile (fun c => c ≠ '>')).length) =
        some (a ++ nl :: b) from rfl] at h
    simp only at h
    rw [lazyScan_none_of_newline a nl b [] hnl hno] at h
    exact absurd h (by simp)

/-- Witness for C10: the concrete link element with a newline in its
inner text from the second conjunct, checked through the matcher. -/
theorem link_inner_text_newline_blocks_rewrite_witness :
    ("u".data ≠ [] ∧ (∀ c ∈ "u".data, c ≠ '"') ∧ isLineTerm '\n' = true ∧
      (∀ i, i ≤ ['a'].length →
        stripPre "</flo:link>".data ((['a'] ++ '\n' :: "b</flo:link>".data).drop i) = none)) ∧
    tryLink ("<flo:link href=\"".data ++
      ("u".data ++ ('"' :: '>' :: (['a'] ++ '\n' :: "b</flo:link>".data)))) = none :=
  ⟨⟨by decide, by decide, by decide, by decide⟩,
   (link_inner_text_newline_blocks_rewrite "u".data ['a'] "b</flo:link>".data '\n'
     (by decide) (by decide) (by decide) (by decide)).1⟩
